import Mathlib

/-!
Shallow embedding of the fmu-sumo uploader core
(`src/fmu/sumo/uploader/_sumofile.py`, `_upload_files.py`, `_sumocase.py`).

Python dictionaries are modelled as structures with `Option`-valued fields
(a missing key is `none`); Python exceptions are modelled with `Except PyExc`;
the remote store, the blob client, the SEGY subprocess, the wall clock and
`os.remove` failures are oracles collected in `EngineEnv`; the local
filesystem is a list of existing paths; calls issued to external
collaborators are recorded as an `Effect` trace.
-/

namespace SumoUploader

/-- Python exceptions that the modelled code can raise. -/
inductive PyExc where
  | attributeError (msg : String)
  | valueError (msg : String)
  | fileExistsError (msg : String)
  | keyError (msg : String)
  | nameError (msg : String)
deriving DecidableEq, Repr

/-- `metadata["fmu"]["realization"]`: only the `uuid` field is read. -/
structure RealizationSection where
  uuid : String
deriving DecidableEq, Repr

/-- `metadata["fmu"]` of a file: only the `realization` key is read. -/
structure FmuSection where
  realization : Option RealizationSection
deriving DecidableEq, Repr

/-- `metadata["data"]`: the keys read by `upload_to_sumo`. -/
structure DataSection where
  format : Option String
  vertical_domain : Option String
deriving DecidableEq, Repr

/-- A file's metadata mapping, restricted to the keys the core reads. -/
structure Metadata where
  data : Option DataSection
  fmu : Option FmuSection
deriving DecidableEq, Repr

/-- The fields of a `SumoFile` (`_sumofile.py`) that `upload_to_sumo` reads.
`size` is `self._size` (`None` for buffer-sourced files). -/
structure SumoFile where
  path : String
  metadata_path : String
  size : Option Nat
  metadata : Metadata
deriving DecidableEq, Repr

/-- Outcome of `self._upload_metadata(...)` (the store's metadata POST):
either a response object (no exception raised), or one of the exception
classes caught in `upload_to_sumo`.  A successful response carries
`status_code`, `text`, `json()["objectid"]` and `json()["blob_url"]`. -/
inductive MetaOutcome where
  | success (status_code : Nat) (text : String) (objectid : String) (blob_url : String)
  | timeoutOrConnect (errText : String)
  | statusError (status_code : Nat) (reason_phrase : String) (body : String)
  | otherError (errText : String)
deriving DecidableEq, Repr

/-- Outcome of `self._upload_byte_string(...)` (the non-seismic blob
transfer).  On success the source normalizes the blob client's return
value to `httpx.Response(201)` (whose `.text` is the empty string). -/
inductive BlobOutcome where
  | success
  | timeoutOrConnect (errText : String)
  | statusError (status_code : Nat) (reason_phrase : String) (errText : String)
  | otherError (errText : String)
deriving DecidableEq, Repr

/-- Outcome of the SEGYImport subprocess in the seismic branch. -/
inductive SegyOutcome where
  | cmdOk
  | cmdFail (stderr : String)
  | exc (errText : String)
deriving DecidableEq, Repr

/-- Oracle for one `upload_to_sumo` call: responses of the external
collaborators, the two phases' measured elapsed times, and whether the
post-upload `os.remove` raises. -/
structure EngineEnv where
  metaOutcome : MetaOutcome
  blobOutcome : BlobOutcome
  segyOutcome : SegyOutcome
  platformDarwin : Bool
  tMeta : ℚ
  tBlob : ℚ
  removeFails : Bool
  removeErrText : String
deriving DecidableEq, Repr

/-- Calls issued to external collaborators, in order. -/
inductive Effect where
  | postObject (parent : String) (meta : Metadata)
  | blobPut (objectid : String)
  | segyImport (objectid : String)
  | deleteObject (objectid : String)
deriving DecidableEq, Repr

/-- The per-file result dictionary built by `upload_to_sumo`; keys that may
be absent are `Option`-valued (`none` = key not present). -/
structure UploadResult where
  blob_file_path : String
  blob_file_size : Option Nat
  status : Option String := none
  metadata_upload_response_status_code : Option Nat := none
  metadata_upload_response_text : Option String := none
  metadata_upload_time_elapsed : Option ℚ := none
  metadata_file_path : Option String := none
  metadata_file_size : Option Nat := none
  blob_upload_response_status_code : Option Nat := none
  blob_upload_response_status_text : Option String := none
  blob_upload_time_elapsed : Option ℚ := none
  file : Option SumoFile := none
deriving DecidableEq, Repr

/-- What one engine call produces: the result dictionary, the trace of
external calls, the `warnings.warn` messages, and the final filesystem. -/
structure EngineOut where
  result : UploadResult
  effects : List Effect
  warns : List String
  disk : List String
deriving DecidableEq, Repr

/-- ASCII lower-casing of one character (`str.lower` on the inputs the
uploader passes: plain ASCII mode strings). -/
def pyLowerChar (c : Char) : Char :=
  if 65 ≤ c.toNat && c.toNat ≤ 90 then Char.ofNat (c.toNat + 32) else c

/-- Python `str.lower()` (ASCII range, as used for `sumo_mode`). -/
def pyLower (s : String) : String :=
  String.mk (s.data.map pyLowerChar)

/-- Python truthiness of the `sumo_parent_id` argument
(`None` and the empty string are falsy). -/
def pyTruthy : Option String → Bool
  | none => false
  | some s => !s.isEmpty

/-- Python `str()` of an optional string (for f-string interpolation). -/
def pyStr : Option String → String
  | none => "None"
  | some s => s

/-- Split a character list on `/` (the grouping behind `str.split("/")`). -/
def splitOnSlash : List Char → List (List Char)
  | [] => [[]]
  | c :: rest =>
    let r := splitOnSlash rest
    if c = '/' then [] :: r
    else
      match r with
      | [] => [[c]]
      | g :: gs => (c :: g) :: gs

/-- Join character groups with `/` between them. -/
def joinWithSlash : List (List Char) → List Char
  | [] => []
  | [g] => g
  | g :: gs => g ++ '/' :: joinWithSlash gs

/-- `os.path.basename` for POSIX paths (last `/`-separated component). -/
def basename (p : String) : String :=
  String.mk ((splitOnSlash p.data).getLastD [])

/-- `os.path.dirname` for POSIX paths. -/
def dirname (p : String) : String :=
  String.mk (joinWithSlash ((splitOnSlash p.data).dropLast))

/-- `os.path.join(d, n)` for the shapes produced by `dirname`/`basename`. -/
def joinPath (d n : String) : String :=
  if d = "" then n else d ++ "/" ++ n

/-- `_path_to_yaml_path` (`_sumofile.py`): `/my/path/file.txt` becomes
`/my/path/.file.txt.yml`. -/
def _path_to_yaml_path (path : String) : String :=
  joinPath (dirname path) ("." ++ basename path ++ ".yml")

/-- The truthy-format seismic test
`metadata.get("data") and metadata.get("data").get("format") and
 metadata.get("data").get("format") in ["openvds", "segy"]`. -/
def isSeismicFormat (m : Metadata) : Bool :=
  match m.data with
  | none => false
  | some d =>
    match d.format with
    | none => false
    | some f => !f.isEmpty && (f == "openvds" || f == "segy")

/-- The seismic normalization `self.metadata["data"]["format"] = "openvds"`
performed before the metadata phase. -/
def normalizeFormat (m : Metadata) : Metadata :=
  if isSeismicFormat m then
    match m.data with
    | none => m
    | some d => { m with data := some { d with format := some "openvds" } }
  else m

/-- The `result.update(...)` performed by the metadata phase of
`upload_to_sumo` for each of the four outcomes of `_upload_metadata`. -/
def metaPhase (env : EngineEnv) (f : SumoFile) (base : UploadResult) : UploadResult :=
  match env.metaOutcome with
  | .success st txt _ _ =>
    { base with
      metadata_upload_response_status_code := some st
      metadata_upload_response_text := some txt
      metadata_upload_time_elapsed := some env.tMeta
      metadata_file_path := some f.metadata_path
      metadata_file_size := f.size }
  | .timeoutOrConnect e =>
    { base with
      status := some "failed"
      metadata_upload_response_status_code := some 500
      metadata_upload_response_text := some e }
  | .statusError c r b =>
    { base with
      status := some "rejected"
      metadata_upload_response_status_code := some c
      metadata_upload_response_text :=
        some ((toString c ++ r ++ b).take 250) }
  | .otherError e =>
    { base with
      status := some "failed"
      metadata_upload_response_status_code := some 500
      metadata_upload_response_text := some e }

/-- The guard `result["metadata_upload_response_status_code"] in [200, 201]`. -/
def metaStatusOk (r : UploadResult) : Bool :=
  r.metadata_upload_response_status_code == some 200 ||
    r.metadata_upload_response_status_code == some 201

/-- The blob-phase `upload_response` dictionary (`status_code` / `text`). -/
structure BlobResp where
  status_code : Option Nat
  text : String
deriving DecidableEq, Repr

/-- The blob phase of `upload_to_sumo`: seismic files go through the
SEGYImport subprocess (synthetic status codes 200/418), everything else
through `_upload_byte_string`.  Returns the `upload_response` dictionary
and the recorded external calls; raises `KeyError` when the seismic branch
reads a missing `vertical_domain`. -/
def blobPhase (md : Metadata) (oid : String) (env : EngineEnv) :
    Except PyExc (BlobResp × List Effect) :=
  if isSeismicFormat md then
    if env.platformDarwin then
      .ok (⟨some 418,
        "Can not perform SEGY upload since OpenVDS does not support Mac"⟩, [])
    else
      match md.data with
      | none => .error (.keyError "data")
      | some d =>
        match d.vertical_domain with
        | none => .error (.keyError "vertical_domain")
        | some _ =>
          match env.segyOutcome with
          | .cmdOk => .ok (⟨some 200, "SEGY uploaded as OpenVDS."⟩, [.segyImport oid])
          | .cmdFail stderr =>
            .ok (⟨some 418, "FAILED SEGY upload as OpenVDS command " ++ stderr⟩,
              [.segyImport oid])
          | .exc e =>
            .ok (⟨some 418, "FAILED SEGY upload as OpenVDS " ++ e⟩, [.segyImport oid])
  else
    match env.blobOutcome with
    | .success => .ok (⟨some 201, ""⟩, [.blobPut oid])
    | .timeoutOrConnect e => .ok (⟨some 500, e⟩, [.blobPut oid])
    | .statusError c _ e => .ok (⟨some c, e⟩, [.blobPut oid])
    | .otherError e => .ok (⟨some 500, e⟩, [.blobPut oid])

/-- The guard
`"status_code" not in upload_response or upload_response["status_code"] not in [200, 201]`. -/
def blobRespBad (br : BlobResp) : Bool :=
  match br.status_code with
  | none => true
  | some c => !(c == 200 || c == 201)

/-- `SumoFile.upload_to_sumo` (`_sumofile.py`): the two-phase per-file
upload protocol, with compensating delete of the metadata object when the
blob phase does not end in 200/201, and post-success source deletion under
`sumo_mode == "move"`. -/
def upload_to_sumo (f : SumoFile) (sumo_parent_id : Option String)
    (env : EngineEnv) (sumo_mode : String) (disk : List String) :
    Except PyExc EngineOut :=
  let result0 : UploadResult :=
    { blob_file_path := f.path, blob_file_size := f.size }
  if !pyTruthy sumo_parent_id then
    .ok ⟨{ result0 with
      status := some "rejected"
      metadata_upload_response_status_code := some 500
      metadata_upload_response_text :=
        some ("File upload cannot be attempted, missing case/sumo_parent_id. Got: "
          ++ pyStr sumo_parent_id) }, [], [], disk⟩
  else
    let md := normalizeFormat f.metadata
    let f' := { f with metadata := md }
    let r1 := metaPhase env f' result0
    let calls1 : List Effect := [.postObject (pyStr sumo_parent_id) md]
    if !metaStatusOk r1 then
      .ok ⟨r1, calls1, [], disk⟩
    else
      match env.metaOutcome with
      | .timeoutOrConnect _ => .error (.nameError "response")
      | .statusError _ _ _ => .error (.nameError "response")
      | .otherError _ => .error (.nameError "response")
      | .success _ _ oid _ =>
        match blobPhase md oid env with
        | .error e => .error e
        | .ok (br, blobCalls) =>
          let r2 := { r1 with
            blob_upload_response_status_code := br.status_code
            blob_upload_response_status_text := some br.text
            blob_upload_time_elapsed := some env.tBlob }
          if blobRespBad br then
            .ok ⟨{ r2 with status := some "failed" },
              calls1 ++ blobCalls ++ [.deleteObject oid], [], disk⟩
          else
            let r3 := { r2 with status := some "ok" }
            let ypath := _path_to_yaml_path f.path
            if pyLower sumo_mode = "move" then
              if env.removeFails then
                .ok ⟨r3, calls1 ++ blobCalls,
                  ["Error deleting file after upload: " ++ env.removeErrText], disk⟩
              else
                .ok ⟨r3, calls1 ++ blobCalls, [],
                  (disk.filter (· ≠ f.path)).filter (· ≠ ypath)⟩
            else
              .ok ⟨r3, calls1 ++ blobCalls, [], disk⟩

/-- `"fmu" in file.metadata and "realization" in file.metadata["fmu"]`
(the base-file scan of `_upload_files`). -/
def hasFmuRealization (f : SumoFile) : Bool :=
  match f.metadata.fmu with
  | none => false
  | some s => s.realization.isSome

/-- Oracle for `create_parameter_file` (`_upload_files.py`): the store's
search-hit count for an existing parameters object, whether the fmu config
file is readable, and the `FileOnJob` that would be synthesized. -/
structure ParamEnv where
  searchHits : Nat
  hasGlobalConfig : Bool
  paramFile : SumoFile
deriving DecidableEq, Repr

/-- `create_parameter_file` (`_upload_files.py`): returns `None` when a
parameters object already exists on the store or the config file is
missing, otherwise the synthesized parameters `FileOnJob`. -/
def create_parameter_file (penv : ParamEnv) : Option SumoFile :=
  if penv.searchHits > 0 then none
  else if !penv.hasGlobalConfig then none
  else some penv.paramFile

/-- `_upload_file` (`_upload_files.py`): one worker's unit of work — run
`upload_to_sumo` and attach the file to its result. -/
def _upload_file (f : SumoFile) (sumo_parent_id : Option String)
    (envOf : SumoFile → EngineEnv) (sumo_mode : String) (disk : List String) :
    Except PyExc EngineOut :=
  match upload_to_sumo f sumo_parent_id (envOf f) sumo_mode disk with
  | .error e => .error e
  | .ok out => .ok { out with result := { out.result with file := some f } }

/-- `executor.map(_upload_file, ...)`: every submitted file is processed
exactly once and the collected results keep submission order; the worker
count only affects scheduling, never the collected collection.  A worker's
exception surfaces when the results are iterated.  The filesystem and the
effect/warning traces are accumulated across the workers. -/
def executorMap (files : List SumoFile) (sumo_parent_id : Option String)
    (envOf : SumoFile → EngineEnv) (sumo_mode : String) (disk : List String) :
    Except PyExc (List UploadResult × List Effect × List String × List String) :=
  match files with
  | [] => .ok ([], [], [], disk)
  | f :: rest =>
    match _upload_file f sumo_parent_id envOf sumo_mode disk with
    | .error e => .error e
    | .ok out =>
      match executorMap rest sumo_parent_id envOf sumo_mode out.disk with
      | .error e => .error e
      | .ok (rs, cs, ws, d) =>
        .ok (out.result :: rs, out.effects ++ cs, out.warns ++ ws, d)

/-- `_upload_files` (`_upload_files.py`): find the first file carrying
`fmu.realization` (dereferencing the never-assigned `base_file` raises
`AttributeError` when there is none), maybe append a synthesized
parameters file, then dispatch every file to a worker.  `threads` is the
`ThreadPoolExecutor` worker count (`0` raises `ValueError`). -/
def _upload_files (files : List SumoFile) (sumo_parent_id : Option String)
    (penv : ParamEnv) (envOf : SumoFile → EngineEnv) (threads : Nat)
    (sumo_mode : String) (disk : List String) :
    Except PyExc (List UploadResult × List Effect × List String × List String) :=
  match files.find? hasFmuRealization with
  | none => .error (.attributeError "'NoneType' object has no attribute 'metadata'")
  | some _base =>
    let files2 := files ++ (create_parameter_file penv).toList
    if threads = 0 then .error (.valueError "max_workers must be greater than 0")
    else executorMap files2 sumo_parent_id envOf sumo_mode disk

/-- The ok/failed/rejected buckets built by `upload_files`. -/
structure Buckets where
  ok_uploads : List UploadResult
  failed_uploads : List UploadResult
  rejected_uploads : List UploadResult
deriving DecidableEq, Repr

/-- The classification loop of `upload_files`: `ok` and `rejected` by tag,
anything else `failed`; a result with no `status` key raises `ValueError`. -/
def classifyResults (results : List UploadResult) : Except PyExc Buckets :=
  match results with
  | [] => .ok ⟨[], [], []⟩
  | r :: rest =>
    match r.status with
    | none => .error (.valueError "File upload result returned with no \"status\" attribute")
    | some st =>
      match classifyResults rest with
      | .error e => .error e
      | .ok b =>
        if st = "ok" then .ok { b with ok_uploads := r :: b.ok_uploads }
        else if st = "rejected" then .ok { b with rejected_uploads := r :: b.rejected_uploads }
        else .ok { b with failed_uploads := r :: b.failed_uploads }

/-- `upload_files` (`_upload_files.py`): dispatch the batch, then partition
the flat result list into the three buckets. -/
def upload_files (files : List SumoFile) (sumo_parent_id : Option String)
    (penv : ParamEnv) (envOf : SumoFile → EngineEnv) (threads : Nat)
    (sumo_mode : String) (disk : List String) :
    Except PyExc (Buckets × List Effect × List String × List String) :=
  match _upload_files files sumo_parent_id penv envOf threads sumo_mode disk with
  | .error e => .error e
  | .ok (results, cs, ws, d) =>
    match classifyResults results with
    | .error e => .error e
    | .ok b => .ok (b, cs, ws, d)

/-- Python `statistics.mean` over exact rationals: sum divided by count;
the empty list raises. -/
def pyMean (values : List ℚ) : Except PyExc ℚ :=
  if values.isEmpty then
    .error (.valueError "mean requires at least one data point")
  else .ok (values.sum / values.length)

/-- Python builtin `max` over a list: fold of binary max over the head;
the empty list raises. -/
def pyMax (values : List ℚ) : Except PyExc ℚ :=
  match values with
  | [] => .error (.valueError "max() arg is an empty sequence")
  | h :: t => .ok (t.foldl max h)

/-- Python builtin `min` over a list; the empty list raises. -/
def pyMin (values : List ℚ) : Except PyExc ℚ :=
  match values with
  | [] => .error (.valueError "min() arg is an empty sequence")
  | h :: t => .ok (t.foldl min h)

/-- The sample variance `Σ (x - mean)² / (n - 1)` used by
`statistics.stdev`. -/
def sampleVariance (values : List ℚ) : ℚ :=
  ((values.map (fun x => (x - values.sum / values.length) ^ 2)).sum) /
    (values.length - 1 : ℚ)

/-- Python `statistics.stdev`: square root of the sample variance. -/
noncomputable def pyStdev (values : List ℚ) : ℝ :=
  Real.sqrt (sampleVariance values)

/-- The `{"mean": ..., "max": ..., "min": ..., "std": ...}` record built by
`_get_stats` inside `_calculate_upload_stats`. -/
structure StatValues where
  mean : ℚ
  max : ℚ
  min : ℚ
  std : ℝ

/-- `_get_stats` (`_sumocase.py`): mean/max/min of the samples, and the
sample standard deviation when more than one sample exists, else `0.0`. -/
noncomputable def _get_stats (values : List ℚ) : Except PyExc StatValues :=
  match pyMean values with
  | .error e => .error e
  | .ok m =>
    match pyMax values with
    | .error e => .error e
    | .ok mx =>
      match pyMin values with
      | .error e => .error e
      | .ok mn =>
        .ok ⟨m, mx, mn, if values.length > 1 then pyStdev values else 0⟩

/-- The two per-phase stat records returned by `_calculate_upload_stats`. -/
structure UploadStats where
  blob_upload_time : StatValues
  metadata_upload_time : StatValues

/-- `u["blob_upload_time_elapsed"]` (`KeyError` when the key is absent). -/
def getBlobElapsed (u : UploadResult) : Except PyExc ℚ :=
  match u.blob_upload_time_elapsed with
  | none => .error (.keyError "blob_upload_time_elapsed")
  | some q => .ok q

/-- `u["metadata_upload_time_elapsed"]` (`KeyError` when absent). -/
def getMetaElapsed (u : UploadResult) : Except PyExc ℚ :=
  match u.metadata_upload_time_elapsed with
  | none => .error (.keyError "metadata_upload_time_elapsed")
  | some q => .ok q

/-- The list comprehension `[u[key] for u in uploads]`: stops at the first
missing key with a `KeyError`, otherwise collects every value in order. -/
def mapExtract (g : UploadResult → Except PyExc ℚ) :
    List UploadResult → Except PyExc (List ℚ)
  | [] => .ok []
  | u :: t =>
    match g u with
    | .error e => .error e
    | .ok q =>
      match mapExtract g t with
      | .error e => .error e
      | .ok qs => .ok (q :: qs)

/-- `_calculate_upload_stats` (`_sumocase.py`): extract both phases'
elapsed times from the given results and aggregate each list. -/
noncomputable def _calculate_upload_stats (uploads : List UploadResult) :
    Except PyExc UploadStats :=
  match mapExtract getBlobElapsed uploads with
  | .error e => .error e
  | .ok bs =>
    match mapExtract getMetaElapsed uploads with
    | .error e => .error e
    | .ok ms =>
      match _get_stats bs with
      | .error e => .error e
      | .ok sb =>
        match _get_stats ms with
        | .error e => .error e
        | .ok sm => .ok ⟨sb, sm⟩

/-- The state of a `SumoCase` (`_sumocase.py`) that `upload` reads:
the parent id and the indexed files. -/
structure SumoCase where
  sumo_parent_id : Option String
  files : List SumoFile
deriving DecidableEq, Repr

/-- `case_metadata["fmu"]["case"]["uuid"]` with every level optional. -/
structure CaseSection where
  uuid : Option String
deriving DecidableEq, Repr

/-- `case_metadata["fmu"]`: only the `case` key is read. -/
structure CaseFmuSection where
  caseSec : Option CaseSection
deriving DecidableEq, Repr

/-- A case metadata mapping, restricted to the nested path the core reads. -/
structure CaseMetadata where
  fmu : Option CaseFmuSection
deriving DecidableEq, Repr

/-- `SumoCase._get_fmu_case_uuid`:
`self.case_metadata.get("fmu").get("case").get("uuid")` — chained `.get`
on a missing level raises `AttributeError` (calling `.get` on `None`), and
a present-but-falsy uuid raises `ValueError`. -/
def _get_fmu_case_uuid (cm : CaseMetadata) : Except PyExc String :=
  match cm.fmu with
  | none => .error (.attributeError "'NoneType' object has no attribute 'get'")
  | some fmu =>
    match fmu.caseSec with
    | none => .error (.attributeError "'NoneType' object has no attribute 'get'")
    | some c =>
      match c.uuid with
      | none => .error (.valueError "Could not get fmu_case_uuid from case metadata")
      | some u =>
        if u.isEmpty then
          .error (.valueError "Could not get fmu_case_uuid from case metadata")
        else .ok u

/-- `SumoCase.__init__` (`_sumocase.py`): extract the case uuid (any
exception from `_get_fmu_case_uuid` propagates, aborting construction) and
set `_sumo_parent_id` to it; start with no files. -/
def SumoCase.construct (cm : CaseMetadata) : Except PyExc SumoCase :=
  match _get_fmu_case_uuid cm with
  | .error e => .error e
  | .ok u => .ok { sumo_parent_id := some u, files := [] }

/-- What one `SumoCase.upload` call produces: the Python return value
(`none` models the bare `return` of the unregistered-case path, otherwise
the `ok_uploads` list), the `warnings.warn` messages, the external-call
trace and the final filesystem. -/
structure CaseUploadOut where
  retval : Option (List UploadResult)
  warnings : List String
  effects : List Effect
  disk : List String

/-- `SumoCase.upload` (`_sumocase.py`): warn and return when the case is
unregistered (unless `register_case`, in which case `register()` — whose
returned parent id is the `registerResult` oracle — is run first); raise
`FileExistsError` when there are no files; otherwise dispatch to
`upload_files`, warn `"Stopping after 0 attempts"` when anything failed,
compute statistics over the ok bucket, and return the ok bucket. -/
noncomputable def SumoCase.upload (c : SumoCase) (threads : Nat)
    (register_case : Bool) (registerResult : String) (penv : ParamEnv)
    (envOf : SumoFile → EngineEnv) (disk : List String) :
    Except PyExc CaseUploadOut :=
  let parent : Option String :=
    if c.sumo_parent_id.isNone && register_case then some registerResult
    else c.sumo_parent_id
  if c.sumo_parent_id.isNone && !register_case then
    .ok ⟨none, ["Case is not registered on Sumo."], [], disk⟩
  else if c.files.isEmpty then
    .error (.fileExistsError "No files to upload. Check search string.")
  else
    match upload_files c.files parent penv envOf threads "copy" disk with
    | .error e => .error e
    | .ok (b, cs, ws, d) =>
      let ws2 := ws ++ (if !b.failed_uploads.isEmpty then ["Stopping after 0 attempts"] else [])
      if !b.ok_uploads.isEmpty then
        match _calculate_upload_stats b.ok_uploads with
        | .error e => .error e
        | .ok _stats => .ok ⟨some b.ok_uploads, ws2, cs, d⟩
      else
        .ok ⟨some b.ok_uploads, ws2, cs, d⟩

/-! ### Helper predicates and fixtures used by the theorems -/

/-- Is an effect a metadata-object delete? -/
def isDeleteEffect : Effect → Bool
  | .deleteObject _ => true
  | _ => false

/-- Is an effect a blob-phase attempt (blob transfer or SEGY import)? -/
def isBlobAttempt : Effect → Bool
  | .blobPut _ => true
  | .segyImport _ => true
  | _ => false

/-- A non-seismic metadata mapping carrying `fmu.realization`. -/
def mdPlain : Metadata :=
  { data := none, fmu := some { realization := some { uuid := "real-1" } } }

/-- A non-seismic metadata mapping without any `fmu` section. -/
def mdNoFmu : Metadata := { data := none, fmu := none }

/-- A concrete disk-sourced file fixture. -/
def f0 : SumoFile :=
  { path := "a/b.bin", metadata_path := "a/.b.bin.yml", size := some 10,
    metadata := mdPlain }

/-- A concrete file fixture with no `fmu` section. -/
def fNoReal : SumoFile :=
  { path := "c/d.bin", metadata_path := "c/.d.bin.yml", size := some 3,
    metadata := mdNoFmu }

/-- An oracle where both phases succeed. -/
def envOk : EngineEnv :=
  { metaOutcome := .success 200 "created" "oid-1" "https://blob"
    blobOutcome := .success, segyOutcome := .cmdOk, platformDarwin := false
    tMeta := 1, tBlob := 2, removeFails := false, removeErrText := "" }

/-- An oracle where metadata creation succeeds (201) but the blob transfer
hits a connection error. -/
def envBlobConnFail : EngineEnv :=
  { envOk with metaOutcome := .success 201 "created" "oid-1" "https://blob"
               blobOutcome := .timeoutOrConnect "boom" }

/-- An oracle where the metadata POST raises an HTTP 404 status error. -/
def env404 : EngineEnv :=
  { envOk with metaOutcome := .statusError 404 "Not Found" "no such case" }

/-- A parameters oracle under which no parameters file is synthesized
(one already exists on the store). -/
def penvNone : ParamEnv :=
  { searchHits := 1, hasGlobalConfig := true, paramFile := f0 }

/-- A parameters oracle that synthesizes a parameters file. -/
def penvInject : ParamEnv :=
  { searchHits := 0, hasGlobalConfig := true, paramFile := fNoReal }

/-- The `ok` payload's filesystem, when the call returned. -/
def caseOutDisk : Except PyExc CaseUploadOut → Option (List String)
  | .ok o => some o.disk
  | .error _ => none

/-- The `ok` payload's warnings, when the call returned. -/
def caseOutWarnings : Except PyExc CaseUploadOut → Option (List String)
  | .ok o => some o.warnings
  | .error _ => none

/-- The `ok` payload's return value, when the call returned. -/
def caseOutRetval : Except PyExc CaseUploadOut → Option (Option (List UploadResult))
  | .ok o => some o.retval
  | .error _ => none

/-- The effects of a blob phase never include a metadata delete. -/
theorem blobPhase_no_delete (md : Metadata) (oid : String) (env : EngineEnv)
    (br : BlobResp) (calls : List Effect)
    (h : blobPhase md oid env = .ok (br, calls)) :
    calls.filter isDeleteEffect = [] := by
  unfold blobPhase at h
  split at h
  · split at h
    · cases h; rfl
    · cases hdata : md.data with
      | none => simp only [hdata] at h; exact Except.noConfusion h
      | some d =>
        simp only [hdata] at h
        cases hv : d.vertical_domain with
        | none => simp only [hv] at h; exact Except.noConfusion h
        | some v =>
          simp only [hv] at h
          cases hs : env.segyOutcome <;> simp only [hs] at h <;> (cases h; rfl)
  · cases hb : env.blobOutcome <;> simp only [hb] at h <;> (cases h; rfl)

/-- C8: a falsy (`None`/empty) parent id makes `upload_to_sumo` return,
without raising and without contacting the store, a `rejected` result with
metadata-phase status 500 and a descriptive message. -/
theorem c8_missing_parent_immediate_reject (f : SumoFile)
    (pid : Option String) (env : EngineEnv) (mode : String)
    (disk : List String) (h : pyTruthy pid = false) :
    upload_to_sumo f pid env mode disk =
      .ok { result :=
              { blob_file_path := f.path, blob_file_size := f.size,
                status := some "rejected",
                metadata_upload_response_status_code := some 500,
                metadata_upload_response_text :=
                  some ("File upload cannot be attempted, missing case/sumo_parent_id. Got: "
                    ++ pyStr pid) },
            effects := [], warns := [], disk := disk } := by
  unfold upload_to_sumo
  rw [h]
  rfl

/-- C8 witness: the rejection at the concrete input `sumo_parent_id = None`. -/
theorem c8_missing_parent_immediate_reject_witness :
    pyTruthy none = false ∧
    upload_to_sumo f0 none envOk "copy" ["a/b.bin"] =
      .ok { result :=
              { blob_file_path := f0.path, blob_file_size := f0.size,
                status := some "rejected",
                metadata_upload_response_status_code := some 500,
                metadata_upload_response_text :=
                  some ("File upload cannot be attempted, missing case/sumo_parent_id. Got: "
                    ++ pyStr none) },
            effects := [], warns := [], disk := ["a/b.bin"] } :=
  ⟨rfl, c8_missing_parent_immediate_reject f0 none envOk "copy" ["a/b.bin"] rfl⟩

/-- C1: when the metadata phase returns status 200/201 but the blob phase
does not end with status 200/201, `upload_to_sumo` issues exactly one
compensating delete — of the object id captured from the metadata-phase
response — and the returned result carries status `failed`. -/
theorem c1_compensating_delete_on_blob_failure (f : SumoFile)
    (pid : Option String) (env : EngineEnv) (mode : String)
    (disk : List String) (st : Nat) (txt oid burl : String)
    (br : BlobResp) (bcalls : List Effect)
    (hp : pyTruthy pid = true)
    (hm : env.metaOutcome = .success st txt oid burl)
    (hst : st = 200 ∨ st = 201)
    (hb : blobPhase (normalizeFormat f.metadata) oid env = .ok (br, bcalls))
    (hbad : blobRespBad br = true) :
    ∃ out, upload_to_sumo f pid env mode disk = .ok out ∧
      out.result.status = some "failed" ∧
      out.effects.filter isDeleteEffect = [.deleteObject oid] := by
  have hnd := blobPhase_no_delete _ _ _ _ _ hb
  rcases hst with rfl | rfl <;>
    (simp only [upload_to_sumo, hp, Bool.not_true, Bool.false_eq_true,
        if_false, hm, metaPhase, metaStatusOk, hb, hbad]
     norm_num
     simp [List.filter_append, hnd, isDeleteEffect])

/-- C1 witness: metadata created with 201, blob transfer hits a connection
error, and the compensating delete of `oid-1` fires exactly once. -/
theorem c1_compensating_delete_on_blob_failure_witness :
    pyTruthy (some "p") = true ∧
    ∃ out, upload_to_sumo f0 (some "p") envBlobConnFail "copy" ["a/b.bin"] = .ok out ∧
      out.result.status = some "failed" ∧
      out.effects.filter isDeleteEffect = [.deleteObject "oid-1"] :=
  ⟨rfl, c1_compensating_delete_on_blob_failure f0 (some "p") envBlobConnFail "copy"
    ["a/b.bin"] 201 "created" "oid-1" "https://blob" ⟨some 500, "boom"⟩
    [.blobPut "oid-1"] rfl rfl (Or.inr rfl) rfl rfl⟩

/-- C7: a metadata-phase HTTP status error with a non-2xx code yields a
`rejected` result whose status code is the real response code and whose
text is the concatenation of code, reason phrase and body truncated to 250
characters, with no blob-phase call; and, in general, whenever the
recorded metadata-phase status is outside {200, 201} the engine returns
right away and its effect trace contains no blob-phase attempt. -/
theorem c7_metadata_status_error_rejected (f : SumoFile)
    (pid : Option String) (env : EngineEnv) (mode : String)
    (disk : List String) (code : Nat) (reason body : String)
    (hp : pyTruthy pid = true)
    (hm : env.metaOutcome = .statusError code reason body)
    (hc : ¬(code = 200 ∨ code = 201)) :
    upload_to_sumo f pid env mode disk =
      .ok { result :=
              { blob_file_path := f.path, blob_file_size := f.size,
                status := some "rejected",
                metadata_upload_response_status_code := some code,
                metadata_upload_response_text :=
                  some ((toString code ++ reason ++ body).take 250) },
            effects := [.postObject (pyStr pid) (normalizeFormat f.metadata)],
            warns := [], disk := disk } ∧
    ∀ env2 : EngineEnv,
      metaStatusOk (metaPhase env2 { f with metadata := normalizeFormat f.metadata }
        { blob_file_path := f.path, blob_file_size := f.size }) = false →
      ∃ out2, upload_to_sumo f pid env2 mode disk = .ok out2 ∧
        out2.effects.filter isBlobAttempt = [] := by
  push_neg at hc
  constructor
  · simp only [upload_to_sumo, hp, Bool.not_true, Bool.false_eq_true, if_false,
      hm, metaPhase, metaStatusOk]
    simp [hc.1, hc.2]
  · intro env2 hko
    refine ⟨⟨metaPhase env2 { f with metadata := normalizeFormat f.metadata }
        { blob_file_path := f.path, blob_file_size := f.size },
      [.postObject (pyStr pid) (normalizeFormat f.metadata)], [], disk⟩, ?_, ?_⟩
    · simp only [upload_to_sumo, hp, Bool.not_true, Bool.false_eq_true, if_false, hko]
      rfl
    · rfl

/-- C7 witness: a 404 status error on the metadata POST at concrete input,
yielding the rejected result with truncated text and no blob attempt. -/
theorem c7_metadata_status_error_rejected_witness :
    upload_to_sumo f0 (some "p") env404 "copy" ["a/b.bin"] =
      .ok { result :=
              { blob_file_path := f0.path, blob_file_size := f0.size,
                status := some "rejected",
                metadata_upload_response_status_code := some 404,
                metadata_upload_response_text :=
                  some ((toString 404 ++ "Not Found" ++ "no such case").take 250) },
            effects := [.postObject (pyStr (some "p")) (normalizeFormat f0.metadata)],
            warns := [], disk := ["a/b.bin"] } :=
  (c7_metadata_status_error_rejected f0 (some "p") env404 "copy" ["a/b.bin"]
    404 "Not Found" "no such case" rfl rfl (by decide)).1

/-- C10: a batch in which no file's metadata has an `fmu` mapping with a
`realization` key (the empty batch included) makes `_upload_files` raise
`AttributeError` on the never-assigned `base_file`, before any upload is
dispatched, so no per-file results are produced. -/
theorem c10_no_realization_raises (files : List SumoFile)
    (pid : Option String) (penv : ParamEnv) (envOf : SumoFile → EngineEnv)
    (threads : Nat) (mode : String) (disk : List String)
    (h : ∀ f ∈ files, hasFmuRealization f = false) :
    _upload_files files pid penv envOf threads mode disk =
      .error (.attributeError "'NoneType' object has no attribute 'metadata'") := by
  have hf : files.find? hasFmuRealization = none :=
    List.find?_eq_none.mpr (by simpa using h)
  unfold _upload_files
  rw [hf]

/-- C10 witness: the one-file batch whose file has no `fmu` section, and
the empty batch, both raise before dispatch. -/
theorem c10_no_realization_raises_witness :
    (∀ f ∈ [fNoReal], hasFmuRealization f = false) ∧
    _upload_files [fNoReal] (some "p") penvNone (fun _ => envOk) 1 "copy" [] =
      .error (.attributeError "'NoneType' object has no attribute 'metadata'") ∧
    _upload_files [] (some "p") penvNone (fun _ => envOk) 1 "copy" [] =
      .error (.attributeError "'NoneType' object has no attribute 'metadata'") :=
  ⟨by decide,
   c10_no_realization_raises [fNoReal] (some "p") penvNone (fun _ => envOk) 1 "copy" []
     (by decide),
   c10_no_realization_raises [] (some "p") penvNone (fun _ => envOk) 1 "copy" []
     (by decide)⟩

/-- Every result collected by `executorMap` carries the submitted file, in
submission order: the result list is the file list, one-to-one. -/
theorem executorMap_results (fs : List SumoFile) (pid : Option String)
    (envOf : SumoFile → EngineEnv) (mode : String) :
    ∀ (disk : List String) rs cs ws d,
      executorMap fs pid envOf mode disk = .ok (rs, cs, ws, d) →
      rs.map (·.file) = fs.map some := by
  induction fs with
  | nil =>
    intro disk rs cs ws d h
    cases h
    rfl
  | cons f rest ih =>
    intro disk rs cs ws d h
    unfold executorMap at h
    cases hu : _upload_file f pid envOf mode disk with
    | error e => simp only [hu] at h; exact Except.noConfusion h
    | ok out =>
      simp only [hu] at h
      cases hr : executorMap rest pid envOf mode out.disk with
      | error e => simp only [hr] at h; exact Except.noConfusion h
      | ok tup =>
        obtain ⟨rs', cs', ws', d'⟩ := tup
        simp only [hr] at h
        cases h
        have hfile : out.result.file = some f := by
          unfold _upload_file at hu
          cases hx : upload_to_sumo f pid (envOf f) mode disk with
          | error e => simp only [hx] at hu; exact Except.noConfusion hu
          | ok o =>
            simp only [hx] at hu
            cases hu
            rfl
        simp [hfile, ih _ _ _ _ _ hr]

/-- C2 (amended): whenever `_upload_files` returns a result collection at
all, that collection contains exactly one UploadResult per dispatched
FileUnit, in submission order — `N` results when no parameters file was
synthesized, `N + 1` when one was appended — for every worker count. -/
theorem c2_upload_files_cardinality (files : List SumoFile)
    (pid : Option String) (penv : ParamEnv) (envOf : SumoFile → EngineEnv)
    (threads : Nat) (mode : String) (disk : List String)
    (rs : List UploadResult) (cs : List Effect) (ws : List String)
    (d : List String)
    (h : _upload_files files pid penv envOf threads mode disk = .ok (rs, cs, ws, d)) :
    rs.map (·.file) = (files ++ (create_parameter_file penv).toList).map some ∧
    rs.length = files.length + (create_parameter_file penv).toList.length := by
  unfold _upload_files at h
  cases hf : files.find? hasFmuRealization with
  | none => simp only [hf] at h; exact Except.noConfusion h
  | some b =>
    simp only [hf] at h
    split at h
    · exact Except.noConfusion h
    · have hm := executorMap_results _ _ _ _ _ _ _ _ _ h
      refine ⟨hm, ?_⟩
      have hl := congrArg List.length hm
      simpa using hl

/-- C2 counterexample: the empty batch produces no result collection at
all (`AttributeError`), and a one-file batch for which a parameters file
is synthesized produces two results, not one. -/
theorem c2_cardinality_counterexample :
    _upload_files [] (some "p") penvNone (fun _ => envOk) 1 "copy" [] =
      .error (.attributeError "'NoneType' object has no attribute 'metadata'") ∧
    (match _upload_files [f0] (some "p") penvInject (fun _ => envOk) 1 "copy" [] with
      | .ok (rs, _, _, _) => rs.length
      | .error _ => 0) = 2 := by
  constructor
  · rfl
  · decide

/-- C2 witness: a successful one-file dispatch with no parameters-file
injection returns exactly one result, carrying that file. -/
theorem c2_upload_files_cardinality_witness :
    ∃ rs cs ws d,
      _upload_files [f0] (some "p") penvNone (fun _ => envOk) 1 "copy" [] =
        .ok (rs, cs, ws, d) ∧
      (rs.map (·.file) = ([f0] ++ (create_parameter_file penvNone).toList).map some ∧
       rs.length = [f0].length + (create_parameter_file penvNone).toList.length) := by
  have he : _upload_files [f0] (some "p") penvNone (fun _ => envOk) 1 "copy" [] =
      .ok ([{ blob_file_path := "a/b.bin", blob_file_size := some 10,
              status := some "ok",
              metadata_upload_response_status_code := some 200,
              metadata_upload_response_text := some "created",
              metadata_upload_time_elapsed := some 1,
              metadata_file_path := some "a/.b.bin.yml",
              metadata_file_size := some 10,
              blob_upload_response_status_code := some 201,
              blob_upload_response_status_text := some "",
              blob_upload_time_elapsed := some 2,
              file := some f0 }],
        [.postObject "p" mdPlain, .blobPut "oid-1"], [], []) := by rfl
  exact ⟨_, _, _, _, he,
    c2_upload_files_cardinality _ _ _ _ _ _ _ _ _ _ _ he⟩

/-- The seed is a lower bound of a max-fold. -/
theorem le_foldl_max_init (t : List ℚ) : ∀ h : ℚ, h ≤ t.foldl max h := by
  induction t with
  | nil => intro h; simp
  | cons a t ih =>
    intro h
    rw [List.foldl_cons]
    exact le_trans (le_max_left h a) (ih (max h a))

/-- A max-fold over a nonempty list returns a member of seed-plus-list. -/
theorem foldl_max_mem (t : List ℚ) : ∀ h : ℚ, t.foldl max h ∈ h :: t := by
  induction t with
  | nil => intro h; simp
  | cons a t ih =>
    intro h
    rw [List.foldl_cons]
    rcases max_choice h a with hm | hm <;> rw [hm] <;>
      [rcases List.mem_cons.mp (ih h) with h1 | h1;
       rcases List.mem_cons.mp (ih a) with h1 | h1] <;> simp [h1]

/-- A max-fold bounds every list element from above. -/
theorem foldl_max_ub (t : List ℚ) : ∀ h x : ℚ, x ∈ t → x ≤ t.foldl max h := by
  induction t with
  | nil => intro h x hx; cases hx
  | cons a t ih =>
    intro h x hx
    rw [List.foldl_cons]
    rcases List.mem_cons.mp hx with rfl | hx'
    · exact le_trans (le_max_right h x) (le_foldl_max_init t (max h x))
    · exact ih (max h a) x hx'

/-- The seed is an upper bound of a min-fold. -/
theorem foldl_min_init_le (t : List ℚ) : ∀ h : ℚ, t.foldl min h ≤ h := by
  induction t with
  | nil => intro h; simp
  | cons a t ih =>
    intro h
    rw [List.foldl_cons]
    exact le_trans (ih (min h a)) (min_le_left h a)

/-- A min-fold over a nonempty list returns a member of seed-plus-list. -/
theorem foldl_min_mem (t : List ℚ) : ∀ h : ℚ, t.foldl min h ∈ h :: t := by
  induction t with
  | nil => intro h; simp
  | cons a t ih =>
    intro h
    rw [List.foldl_cons]
    rcases min_choice h a with hm | hm <;> rw [hm] <;>
      [rcases List.mem_cons.mp (ih h) with h1 | h1;
       rcases List.mem_cons.mp (ih a) with h1 | h1] <;> simp [h1]

/-- A min-fold bounds every list element from below. -/
theorem foldl_min_lb (t : List ℚ) : ∀ h x : ℚ, x ∈ t → t.foldl min h ≤ x := by
  induction t with
  | nil => intro h x hx; cases hx
  | cons a t ih =>
    intro h x hx
    rw [List.foldl_cons]
    rcases List.mem_cons.mp hx with rfl | hx'
    · exact le_trans (foldl_min_init_le t (min h x)) (min_le_right h x)
    · exact ih (min h a) x hx'

/-- The spec's reading of one phase's aggregate statistics over samples
`v`: arithmetic mean, true maximum and minimum of the samples, standard
deviation `0` for fewer than two samples and the sample standard
deviation otherwise. -/
def specStats (sv : StatValues) (v : List ℚ) : Prop :=
  sv.mean = v.sum / v.length ∧
  sv.max ∈ v ∧ (∀ x ∈ v, x ≤ sv.max) ∧
  sv.min ∈ v ∧ (∀ x ∈ v, sv.min ≤ x) ∧
  (v.length < 2 → sv.std = 0) ∧
  (2 ≤ v.length →
    sv.std = Real.sqrt
      ((((v.map (fun x => (x - v.sum / v.length) ^ 2)).sum) / (v.length - 1 : ℚ) : ℚ) : ℝ))

/-- `_get_stats` satisfies the spec's statistics contract on any nonempty
sample list. -/
theorem getStats_spec (v : List ℚ) (hv : v ≠ []) :
    ∃ sv, _get_stats v = .ok sv ∧ specStats sv v := by
  obtain ⟨h, t, rfl⟩ := List.exists_cons_of_ne_nil hv
  refine ⟨⟨(h :: t).sum / (h :: t).length, t.foldl max h, t.foldl min h,
    if (h :: t).length > 1 then pyStdev (h :: t) else 0⟩, ?_, ?_⟩
  · unfold _get_stats pyMean pyMax pyMin
    simp
  · refine ⟨rfl, foldl_max_mem t h, ?_, foldl_min_mem t h, ?_, ?_, ?_⟩
    · intro x hx
      rcases List.mem_cons.mp hx with rfl | hx'
      · exact le_foldl_max_init t x
      · exact foldl_max_ub t h x hx'
    · intro x hx
      rcases List.mem_cons.mp hx with rfl | hx'
      · exact foldl_min_init_le t x
      · exact foldl_min_lb t h x hx'
    · intro hlen
      have : (h :: t).length = 1 := by
        have := List.length_pos.mpr (List.cons_ne_nil h t)
        omega
      simp [this]
    · intro hlen
      have : (h :: t).length > 1 := by omega
      simp only [this, if_true]
      rfl

/-- Under the presence hypothesis, extracting the blob elapsed times
succeeds and yields the `filterMap` of the field. -/
theorem mapM_getBlobElapsed (us : List UploadResult)
    (h : ∀ u ∈ us, u.blob_upload_time_elapsed.isSome) :
    mapExtract getBlobElapsed us =
      .ok (us.filterMap (·.blob_upload_time_elapsed)) := by
  induction us with
  | nil => rfl
  | cons u t ih =>
    obtain ⟨q, hq⟩ := Option.isSome_iff_exists.mp (h u (List.mem_cons_self u t))
    have ht := ih (fun x hx => h x (List.mem_cons_of_mem u hx))
    simp [mapExtract, getBlobElapsed, hq, ht, List.filterMap_cons]

/-- Under the presence hypothesis, extracting the metadata elapsed times
succeeds and yields the `filterMap` of the field. -/
theorem mapM_getMetaElapsed (us : List UploadResult)
    (h : ∀ u ∈ us, u.metadata_upload_time_elapsed.isSome) :
    mapExtract getMetaElapsed us =
      .ok (us.filterMap (·.metadata_upload_time_elapsed)) := by
  induction us with
  | nil => rfl
  | cons u t ih =>
    obtain ⟨q, hq⟩ := Option.isSome_iff_exists.mp (h u (List.mem_cons_self u t))
    have ht := ih (fun x hx => h x (List.mem_cons_of_mem u hx))
    simp [mapExtract, getMetaElapsed, hq, ht, List.filterMap_cons]

/-- C9: over a nonempty list of results that carry both phases' elapsed
times (as every `ok` result does), `_calculate_upload_stats` returns, per
phase, the arithmetic mean, maximum and minimum of the samples, with
standard deviation `0` for fewer than two samples and the sample standard
deviation otherwise. -/
theorem c9_upload_stats (uploads : List UploadResult)
    (hne : uploads ≠ [])
    (hall : ∀ u ∈ uploads, u.blob_upload_time_elapsed.isSome ∧
      u.metadata_upload_time_elapsed.isSome) :
    ∃ s, _calculate_upload_stats uploads = .ok s ∧
      specStats s.blob_upload_time
        (uploads.filterMap (·.blob_upload_time_elapsed)) ∧
      specStats s.metadata_upload_time
        (uploads.filterMap (·.metadata_upload_time_elapsed)) := by
  have hb := mapM_getBlobElapsed uploads (fun u hu => (hall u hu).1)
  have hm := mapM_getMetaElapsed uploads (fun u hu => (hall u hu).2)
  obtain ⟨u, t, rfl⟩ := List.exists_cons_of_ne_nil hne
  have hbne : (u :: t).filterMap (·.blob_upload_time_elapsed) ≠ [] := by
    obtain ⟨q, hq⟩ :=
      Option.isSome_iff_exists.mp (hall u (List.mem_cons_self u t)).1
    simp [List.filterMap_cons, hq]
  have hmne : (u :: t).filterMap (·.metadata_upload_time_elapsed) ≠ [] := by
    obtain ⟨q, hq⟩ :=
      Option.isSome_iff_exists.mp (hall u (List.mem_cons_self u t)).2
    simp [List.filterMap_cons, hq]
  obtain ⟨sb, hsb, hsbSpec⟩ := getStats_spec _ hbne
  obtain ⟨sm, hsm, hsmSpec⟩ := getStats_spec _ hmne
  refine ⟨⟨sb, sm⟩, ?_, hsbSpec, hsmSpec⟩
  unfold _calculate_upload_stats
  simp only [hb, hm, hsb, hsm]

/-- C9 witness: one successful upload with blob elapsed 3 and metadata
elapsed 5; the standard deviation of a single sample is 0. -/
theorem c9_upload_stats_witness :
    ∃ s, _calculate_upload_stats
        [{ blob_file_path := "x", blob_file_size := some 1,
           status := some "ok",
           metadata_upload_time_elapsed := some 5,
           blob_upload_time_elapsed := some 3 }] = .ok s ∧
      specStats s.blob_upload_time
        ([({ blob_file_path := "x", blob_file_size := some 1,
             status := some "ok",
             metadata_upload_time_elapsed := some 5,
             blob_upload_time_elapsed := some 3 } : UploadResult)].filterMap
          (·.blob_upload_time_elapsed)) ∧
      specStats s.metadata_upload_time
        ([({ blob_file_path := "x", blob_file_size := some 1,
             status := some "ok",
             metadata_upload_time_elapsed := some 5,
             blob_upload_time_elapsed := some 3 } : UploadResult)].filterMap
          (·.metadata_upload_time_elapsed)) :=
  c9_upload_stats _ (by simp) (by simp)

/-- C3: with a registered parent and an empty pending file set,
`SumoCase.upload` raises `FileExistsError` instead of warning and
returning an empty result (the behaviour the spec and the repository's
empty-search-string test expect). -/
theorem c3_empty_pending_set_raises :
    SumoCase.upload ⟨some "11111111-1111-1111-1111-111111111111", []⟩ 4 false "0"
      penvNone (fun _ => envOk) [] =
      .error (.fileExistsError "No files to upload. Check search string.") := by
  rfl

/-- C4: when the case uuid cannot be extracted, `SumoCase.__init__` does
not succeed with an unregistered case: the missing nested mapping makes it
propagate `AttributeError`, and a present-but-empty uuid makes it
propagate `ValueError`. -/
theorem c4_invalid_case_metadata_construction_raises :
    SumoCase.construct { fmu := none } =
      .error (.attributeError "'NoneType' object has no attribute 'get'") ∧
    SumoCase.construct { fmu := some { caseSec := some { uuid := some "" } } } =
      .error (.valueError "Could not get fmu_case_uuid from case metadata") :=
  ⟨rfl, rfl⟩

/-- C5: a metadata-phase 404 puts the file in the `rejected` bucket, but
`SumoCase.upload` completes with an empty warning list — no
"case not registered" diagnostic warning is raised anywhere. -/
theorem c5_rejected_404_but_no_registration_warning :
    (match upload_files [f0] (some "p") penvNone (fun _ => env404) 1 "copy" [] with
      | .ok (b, _, _, _) =>
        b.rejected_uploads.map (·.metadata_upload_response_status_code)
      | .error _ => []) = [some 404] ∧
    caseOutWarnings (SumoCase.upload ⟨some "p", [f0]⟩ 1 false "0" penvNone
      (fun _ => env404) []) = some [] ∧
    caseOutRetval (SumoCase.upload ⟨some "p", [f0]⟩ 1 false "0" penvNone
      (fun _ => env404) []) = some (some []) := by
  refine ⟨rfl, rfl, rfl⟩

/-- C6: the engine honours `sumo_mode` — `"moVE"` deletes the source file
and its sidecar, `"copy"` keeps both, and a failing deletion leaves the
status `ok` and only warns — but `SumoCase.upload` always dispatches with
the default mode `"copy"` (the case holds no transfer mode at all), so a
successful orchestrated upload leaves both files on disk regardless of
the case's intended transfer mode. -/
theorem c6_engine_moves_but_orchestrator_always_copies :
    (match upload_to_sumo f0 (some "p") envOk "moVE" ["a/b.bin", "a/.b.bin.yml"] with
      | .ok out => some (out.result.status, out.disk, out.warns)
      | .error _ => none) = some (some "ok", [], []) ∧
    (match upload_to_sumo f0 (some "p") envOk "copy" ["a/b.bin", "a/.b.bin.yml"] with
      | .ok out => some (out.result.status, out.disk)
      | .error _ => none) = some (some "ok", ["a/b.bin", "a/.b.bin.yml"]) ∧
    (match upload_to_sumo f0 (some "p")
        { envOk with removeFails := true, removeErrText := "perm" } "move"
        ["a/b.bin", "a/.b.bin.yml"] with
      | .ok out => some (out.result.status, out.disk, out.warns)
      | .error _ => none) =
      some (some "ok", ["a/b.bin", "a/.b.bin.yml"],
        ["Error deleting file after upload: perm"]) ∧
    caseOutDisk (SumoCase.upload ⟨some "p", [f0]⟩ 1 false "0" penvNone
      (fun _ => envOk) ["a/b.bin", "a/.b.bin.yml"]) =
      some ["a/b.bin", "a/.b.bin.yml"] := by
  refine ⟨by decide, by decide, by decide, rfl⟩

end SumoUploader
